import Mathlib

/-!
Verification development for the storyden plugin execution runtime
(subprocess "SDX" backend, WebAssembly backend, and manager reconciliation).

The definitions below are a shallow embedding of the Go source:

* `goClean`, `goJoin`, `goBase`, `goDir` model Go's `path/filepath`
  `Clean`, `Join`, `Base` and `Dir` on Unix (separator `/`, empty volume
  names), operating on the underlying character lists so that every
  function is structurally recursive and kernel-evaluable.
* `ZipEntry`/`Archive` model an `archive/zip` reader: `Archive.none`
  stands for a byte blob `zip.NewReader` rejects, `Archive.some files`
  for the entry list in archive order.
* `readSDXManifest`, `ensureExecutablePresent`, `sdxValidate` embed the
  subprocess backend's validation (`plugin_runner` package); JSON
  decoding of manifest bytes (`json.Unmarshal`) is an external library
  and is passed in as a function `dec : String → Option Manifest`.
* `joinWithin`, `extractSDXArchive` embed the zip-slip guard and the
  extraction loop, over a mock filesystem `FS` that records created
  directories and written files.
* `PluginSession`, `dispatchStep`, `exitWatcherSignal` embed the
  session state machine and the dispatch loop of `sdxSession.runProcess`.
* `sdxLoad`, `sdxUnload`, `sdxGetSession`, `sdxStartPlugin` embed the
  `sdxRunner` registry operations.
* `setActiveState`, `activatePlugin` embed `Manager.SetActiveState`.
-/

/-- Split a character list on the separator character `/`, mirroring
`strings.Split(s, "/")`: a list of n separators yields n+1 chunks. -/
def splitSlash : List Char → List (List Char)
  | [] => [[]]
  | c :: rest =>
    let r := splitSlash rest
    if c = '/' then [] :: r
    else
      match r with
      | h :: t => (c :: h) :: t
      | [] => [[c]]

/-- Core of Go's `filepath.Clean` lexical processing: consume path
components left to right, skipping empty and `.` components, resolving
`..` against the output buffer (kept reversed in `acc`). In a rooted
path a `..` at the root is dropped; in a relative path it is kept. -/
def cleanCore (rooted : Bool) : List (List Char) → List (List Char) → List (List Char)
  | [], acc => acc.reverse
  | c :: rest, acc =>
    if c = [] ∨ c = ['.'] then cleanCore rooted rest acc
    else if c = ['.', '.'] then
      match acc with
      | [] => cleanCore rooted rest (if rooted then [] else [['.', '.']])
      | top :: tail =>
        if top = ['.', '.'] then cleanCore rooted rest (c :: top :: tail)
        else cleanCore rooted rest tail
    else cleanCore rooted rest (c :: acc)

/-- Join components with `/`, mirroring `strings.Join(comps, "/")`. -/
def joinComponents : List (List Char) → List Char
  | [] => []
  | [c] => c
  | c :: rest => c ++ '/' :: joinComponents rest

/-- Go `filepath.Clean` on Unix, over the character list of the path. -/
def goCleanL (cs : List Char) : List Char :=
  match cs with
  | [] => ['.']
  | c :: _ =>
    let rooted := c = '/'
    let out := joinComponents (cleanCore rooted (splitSlash cs) [])
    if rooted then '/' :: out
    else if out = [] then ['.'] else out

/-- Go `filepath.Clean` on Unix. -/
def goClean (p : String) : String := String.mk (goCleanL p.data)

/-- Go `filepath.Join(a, b)` on Unix: skip leading empty elements, join
the rest with `/`, and `Clean` the result; all-empty input yields "". -/
def goJoin (a b : String) : String :=
  match a.data with
  | [] => match b.data with
          | [] => ""
          | _ => goClean b
  | _ => String.mk (goCleanL (a.data ++ '/' :: b.data))

/-- Go `filepath.Base` on Unix: empty path is `.`; otherwise strip
trailing slashes, and return the element after the last remaining
slash (`/` when the path was entirely slashes). -/
def goBase (p : String) : String :=
  match p.data with
  | [] => "."
  | _ =>
    let stripped := (p.data.reverse.dropWhile (fun c => c = '/')).reverse
    match stripped with
    | [] => "/"
    | _ => String.mk (stripped.reverse.takeWhile (fun c => c ≠ '/')).reverse

/-- Go `filepath.Dir` on Unix: everything up to (and including) the
final slash, `Clean`ed; a path with no slash has directory `.`. -/
def goDir (p : String) : String :=
  String.mk (goCleanL ((p.data.reverse.dropWhile (fun c => c ≠ '/')).reverse))

/-- `strings.HasPrefix(s, pre)`. -/
def strHasPre (s pre : String) : Bool := pre.data.isPrefixOf s.data

/-- The rejection condition of `joinWithin`: the cleaned join of the
entry name onto the extraction base lies neither strictly inside the
base (no `base + "/"` prefix) nor at the base itself. This is exactly
the lexical meaning of "the entry name resolves outside the extraction
working directory". -/
def escapes (base name : String) : Bool :=
  let clean := goJoin base name
  !(strHasPre clean (base ++ "/")) && (clean != base)

/-- `joinWithin(base, name)` from the subprocess backend: join and
clean, then reject the result unless it stays within `base`. -/
def joinWithin (base name : String) : Except String String :=
  if escapes base name then .error "archive entry escapes extraction directory"
  else .ok (goJoin base name)

/-- One entry of a zip archive: stored name, directory flag (from
`file.FileInfo().IsDir()`), permission mode bits, and raw content
bytes (as a string; permission handling is not load-bearing for the
claims, the mode field records `file.FileInfo().Mode()`). -/
structure ZipEntry where
  name : String
  isDir : Bool
  mode : Nat
  content : String
deriving DecidableEq

/-- A plugin archive blob as seen through `zip.NewReader`: `none` for a
blob that is not a readable zip, `some files` for the entries in
archive order. -/
def Archive : Type := Option (List ZipEntry)

/-- A plugin manifest (`lib/plugin.Manifest`): the declared identity. -/
structure Manifest where
  id : String
  name : String
deriving DecidableEq

/-- Validation error taxonomy of the subprocess backend's `Validate`:
each constructor stands for one distinct wrapped `fault` error. -/
inductive VError
  | openArchive
  | manifestNotFound
  | decodeManifest
  | missingExecutable
deriving DecidableEq

/-- Whether a zip entry is picked up by `readSDXManifest`:
`filepath.Base(file.Name) == "manifest.json"`. -/
def isManifestEntry (f : ZipEntry) : Bool := goBase f.name == "manifest.json"

/-- Whether a zip entry counts as the main executable:
`filepath.Base(file.Name)` is `main` or `main.exe`. -/
def isMainEntry (f : ZipEntry) : Bool :=
  goBase f.name == "main" || goBase f.name == "main.exe"

/-- `ensureExecutablePresent`'s loop condition: some entry whose base
name is `main` or `main.exe` exists anywhere in the archive. -/
def hasMainExecutable (files : List ZipEntry) : Bool := files.any isMainEntry

/-- `readSDXManifest(bin)`: open the archive, return the content bytes
of the first entry whose base name is `manifest.json`, or an error when
the archive is unreadable or has no such entry. -/
def readSDXManifest (arc : Archive) : Except VError String :=
  match arc with
  | none => .error .openArchive
  | some files =>
    match files.find? isManifestEntry with
    | some f => .ok f.content
    | none => .error .manifestNotFound

/-- `ensureExecutablePresent(bin)`: open the archive and require an
entry base-named `main` or `main.exe` at any depth. -/
def ensureExecutablePresent (arc : Archive) : Except VError Unit :=
  match arc with
  | none => .error .openArchive
  | some files =>
    if hasMainExecutable files then .ok () else .error .missingExecutable

/-- `sdxRunner.Validate`: read the manifest bytes, decode them
(`json.Unmarshal` is modelled by the decode function `dec`), then
check for the main executable; the three failures stay distinct. -/
def sdxValidate (dec : String → Option Manifest) (arc : Archive) : Except VError Manifest :=
  match readSDXManifest arc with
  | .error e => .error e
  | .ok bytes =>
    match dec bytes with
    | none => .error .decodeManifest
    | some m =>
      match ensureExecutablePresent arc with
      | .error e => .error e
      | .ok _ => .ok m

/-- Mock filesystem for the extraction model: the set of directories
that exist and the regular files written so far (path and content;
`O_TRUNC` re-writes simply prepend, which is enough for the claims). -/
structure FS where
  dirs : List String
  files : List (String × String)
deriving DecidableEq

/-- Extraction error taxonomy of `extractSDXArchive`: unreadable
archive, zip-slip rejection, `os.MkdirAll` failure, `os.OpenFile`
failure, and the final missing-`main` check. -/
inductive ExtractErr
  | openArchive
  | entryEscapes
  | mkdirFailed
  | createFailed
  | missingMain
deriving DecidableEq

/-- `os.MkdirAll`: fails when the path already exists as a regular
file; otherwise the directory (and, on a real system, its parents)
exists afterwards. -/
def mkdirAll (fs : FS) (p : String) : Option FS :=
  if fs.files.any (fun f => f.1 == p) then none
  else some { fs with dirs := p :: fs.dirs }

/-- `os.OpenFile(p, O_WRONLY|O_CREATE|O_TRUNC, mode)` followed by
`io.Copy`: fails when `p` is an existing directory, otherwise records
the written file. -/
def openFileW (fs : FS) (p : String) (content : String) : Option FS :=
  if p ∈ fs.dirs then none
  else some { fs with files := (p, content) :: fs.files }

/-- Result of the extraction model: the function result (working
directory and executable path on success), the filesystem as mutated so
far (extraction does not roll back on failure), and the log of file
paths actually written. -/
structure ExtractOut where
  result : Except ExtractErr (String × String)
  fs : FS
  writes : List String

/-- The per-entry loop of `extractSDXArchive`: guard the joined path
with `joinWithin`, create directories for directory entries, create
parent directories and copy content for file entries (granting execute
bits to `main`/`main.exe` — mode bookkeeping elided), remember the
executable path, and finally require that an executable was seen. -/
def extractLoop (workdir : String) (fs : FS) (writes : List String)
    (binPath : String) : List ZipEntry → ExtractOut
  | [] =>
    if binPath = "" then ⟨.error .missingMain, fs, writes⟩
    else ⟨.ok (workdir, binPath), fs, writes⟩
  | e :: rest =>
    match joinWithin workdir e.name with
    | .error _ => ⟨.error .entryEscapes, fs, writes⟩
    | .ok target =>
      if e.isDir then
        match mkdirAll fs target with
        | none => ⟨.error .mkdirFailed, fs, writes⟩
        | some fs1 => extractLoop workdir fs1 writes binPath rest
      else
        match mkdirAll fs (goDir target) with
        | none => ⟨.error .mkdirFailed, fs, writes⟩
        | some fs1 =>
          match openFileW fs1 target e.content with
          | none => ⟨.error .createFailed, fs1, writes⟩
          | some fs2 =>
            let binPath1 := if isMainEntry e then target else binPath
            extractLoop workdir fs2 (writes ++ [target]) binPath1 rest

/-- `extractSDXArchive(bin)`: open the archive, create a fresh private
working directory (`os.MkdirTemp`, modelled by taking the directory
name as a parameter and recording it in the filesystem), then run the
entry loop. On failure the already-performed filesystem mutations are
kept — the source returns empty strings and removes nothing. -/
def extractSDXArchive (fs : FS) (workdir : String) (arc : Archive) : ExtractOut :=
  match arc with
  | none => ⟨.error .openArchive, fs, []⟩
  | some entries =>
    extractLoop workdir { fs with dirs := workdir :: fs.dirs } [] "" entries

/-- The session's reported lifecycle state
(`resource_plugin.ReportedState`: "active", "inactive", "errored"). -/
inductive ReportedState
  | active
  | inactive
  | errored
deriving DecidableEq

/-- Run type of a session; the source currently only constructs
`RunTypeBackground`. -/
inductive RunType
  | background
deriving DecidableEq

/-- Modelled from the spec: a pending command record of the
pending-command table — "the original request plus a private
single-slot response channel". The request is kept as its method name;
the response channel itself is represented by delivery events in
`StepOut`. (The `pendingCommand` struct lives in a session source file
that is not part of the provided sources.) -/
structure PendingCommand where
  method : String
deriving DecidableEq

/-- Modelled from the spec: a correlated response record — "a
correlation identifier, designated recipient" plus the payload; this is
the `RPCResponse` decoded by the dispatch loop from one stdout line.
(The `RPCResponse` struct lives in a source file not provided.) -/
structure RPCResponse where
  ID : String
  payload : String
deriving DecidableEq

/-- The live state of one `PluginSession` that the provided source
manipulates: its manifest identity, observed lifecycle state with the
accompanying error note, the run type, and the pending-command table
(an association list keyed by the correlation identifier string). -/
structure PluginSession where
  id : String
  reportedState : ReportedState
  errorNote : String
  runType : RunType
  pending : List (String × PendingCommand)
deriving DecidableEq

/-- Modelled from the spec: `PluginSession.setState` — "a Session's
observed state only transitions along the state machine; an error note
accompanies the transition". The setter assigns the reported state and
its note under the state lock. (Its body lives in a session source file
that is not part of the provided sources.) -/
def setState (s : PluginSession) (st : ReportedState) (note : String) : PluginSession :=
  { s with reportedState := st, errorNote := note }

/-- `handleError` from `runProcess`: log and move the session to the
errored state recording the error text. -/
def handleError (s : PluginSession) (msg : String) : PluginSession :=
  setState s .errored msg

/-- The base32hex alphabet accepted by `xid.FromString`. -/
def xidAlphabet : List Char := "0123456789abcdefghijklmnopqrstuv".data

/-- `xid.FromString` succeeds exactly on 20-character strings over the
xid base32hex alphabet (external `rs/xid` library behavior). -/
def isValidXID (s : String) : Bool :=
  s.data.length == 20 && s.data.all (fun c => xidAlphabet.contains c)

/-- The exit watcher of `runProcess`: when the process terminates, read
the `stopping` flag; a requested stop sends a nil error (clean stop),
otherwise the wait error is wrapped as "process exited" or, for an
error-free wait, reported as "plugin exited unexpectedly". -/
def exitWatcherSignal (stopping : Bool) (waitErr : Option String) : Option String :=
  if stopping then none
  else
    match waitErr with
    | some e => some ("process exited: " ++ e)
    | none => some "plugin exited unexpectedly"

/-- One event consumed by the dispatch loop's `select`: context
cancellation, a signal on the internal error channel (`none` is the
clean-stop nil error), closure of the outbound channel, or one line
forwarded from the process's standard output. -/
inductive Event
  | ctxDone
  | errSignal (e : Option String)
  | outClosed
  | outLine (line : String)

/-- What the dispatch loop does next after one event. -/
inductive Outcome
  | next
  | exitClean
  | exitCancelled
  | exitErr (note : String)
deriving DecidableEq

/-- Delivery of a matched response to the pending command's private
response channel, or its abandonment when the execution context was
already cancelled; identified by the correlation identifier. -/
inductive Delivery
  | delivered (id : String) (resp : RPCResponse)
  | abandoned (id : String) (resp : RPCResponse)
deriving DecidableEq

/-- Result of one dispatch-loop iteration. -/
structure StepOut where
  sess : PluginSession
  outcome : Outcome
  delivery : Option Delivery
deriving DecidableEq

/-- The stdout-line handling of the dispatch loop: skip empty lines,
treat lines not starting with the JSON object delimiter as plain log
text, decode the response (`json.Unmarshal` modelled by `decResp`),
parse its correlation identifier with `xid.FromString`, take-and-remove
the matching pending command (`pendingCommands.LoadAndDelete`), and
deliver the response unless the context was cancelled. Decode, parse
and unknown-command failures move the session to errored and continue. -/
def handleLine (decResp : String → Option RPCResponse) (cancelled : Bool)
    (s : PluginSession) (line : String) : StepOut :=
  match line.data with
  | [] => ⟨s, .next, none⟩
  | c :: _ =>
    if c ≠ '\x7b' then ⟨s, .next, none⟩
    else
      match decResp line with
      | none => ⟨handleError s "failed to decode response", .next, none⟩
      | some resp =>
        if isValidXID resp.ID then
          match s.pending.lookup resp.ID with
          | none => ⟨handleError s "received response for unknown command", .next, none⟩
          | some _ =>
            let s1 := { s with pending := s.pending.filter (fun kv => kv.1 != resp.ID) }
            if cancelled then ⟨s1, .next, some (.abandoned resp.ID resp)⟩
            else ⟨s1, .next, some (.delivered resp.ID resp)⟩
        else ⟨handleError s "failed to parse response ID", .next, none⟩

/-- One iteration of the dispatch loop of `sdxSession.runProcess`:
context cancellation sets the state to inactive and exits; a nil error
signal (clean stop) sets inactive and exits; a non-nil error signal
moves to errored and exits with that error; a closed outbound channel
exits; a stdout line is handled by `handleLine`. -/
def dispatchStep (decResp : String → Option RPCResponse) (cancelled : Bool)
    (s : PluginSession) : Event → StepOut
  | .ctxDone => ⟨setState s .inactive "", .exitCancelled, none⟩
  | .errSignal none => ⟨setState s .inactive "", .exitClean, none⟩
  | .errSignal (some e) => ⟨handleError s e, .exitErr e, none⟩
  | .outClosed => ⟨s, .exitClean, none⟩
  | .outLine line => handleLine decResp cancelled s line

/-- The session registry of one `sdxRunner`
(`xsync.Map[plugin.ID, *sdxSession]` as an association list). -/
structure RunnerState where
  sessions : List (String × PluginSession)
deriving DecidableEq

/-- Registry lookup (`r.sessions.Load(id)`). -/
def lookupSession (st : RunnerState) (id : String) : Option PluginSession :=
  st.sessions.lookup id

/-- Registry store (`r.sessions.Store(id, sess)`): replace-or-insert. -/
def storeSession (st : RunnerState) (id : String) (s : PluginSession) : RunnerState :=
  ⟨(id, s) :: st.sessions.filter (fun kv => kv.1 != id)⟩

/-- Registry delete (`r.sessions.Delete(id)`). -/
def deleteSession (st : RunnerState) (id : String) : RunnerState :=
  ⟨st.sessions.filter (fun kv => kv.1 != id)⟩

/-- `sdxRunner.Load`: validate the archive; on failure propagate the
error and leave the registry untouched, otherwise build a fresh
inactive background session and store it under the manifest's id. -/
def sdxLoad (dec : String → Option Manifest) (st : RunnerState) (arc : Archive) :
    Except VError PluginSession × RunnerState :=
  match sdxValidate dec arc with
  | .error e => (.error e, st)
  | .ok m =>
    let sess : PluginSession :=
      { id := m.id, reportedState := .inactive, errorNote := "",
        runType := .background, pending := [] }
    (.ok sess, storeSession st m.id sess)

/-- `sdxRunner.GetSession`. -/
def sdxGetSession (st : RunnerState) (id : String) : Except String PluginSession :=
  match lookupSession st id with
  | none => .error "plugin session not found"
  | some s => .ok s

/-- `sdxRunner.Unload`: unknown ids fail; otherwise `StopPlugin` is
invoked and its outcome (`stopResult`) is only logged at warn level,
the registry entry is deleted, the working directory is removed, and
the call reports success. -/
def sdxUnload (st : RunnerState) (_stopResult : Except String Unit) (id : String) :
    Except String Unit × RunnerState :=
  match lookupSession st id with
  | none => (.error "plugin session not found", st)
  | some _ => (.ok (), deleteSession st id)

/-- `sdxRunner.StartPlugin`: unknown ids fail; otherwise the session's
`runProcess` is launched on a separate goroutine whose error is only
logged, and the call itself returns nil immediately. -/
def sdxStartPlugin (st : RunnerState) (id : String) : Except String Unit :=
  match lookupSession st id with
  | none => .error "plugin session not found"
  | some _ => .ok ()

/-- The front of `sdxSession.runProcess`, up to the point where the
child process would be spawned: the already-running precondition check,
the run-type check, and archive extraction. On the extraction-failure
path `runProcess` returns before installing its cleanup `defer` and
`extractSDXArchive` has discarded the working directory path, so the
partially populated working directory stays in the filesystem; on the
success path the session becomes active. Returns runProcess's result,
the session, and the filesystem after extraction. -/
def runProcessStart (s : PluginSession) (fs : FS) (workdir : String) (arc : Archive) :
    Except String Unit × PluginSession × FS :=
  if s.reportedState = .active then (.error "plugin is already running", s, fs)
  else if s.runType ≠ .background then (.error "only background plugins can be started", s, fs)
  else
    let out := extractSDXArchive fs workdir arc
    match out.result with
    | .error _ => (.error "failed to extract plugin", s, out.fs)
    | .ok _ => (.ok (), setState s .active "", out.fs)

/-- The desired activation state (`plugin.ActiveState` is a generated
wrapper around the string enum in `activeStateEnum`). -/
def activeStateActive : String := "active"

/-- The inactive desired activation state. -/
def activeStateInactive : String := "inactive"

/-- A persisted plugin record (`plugin.Record`): storage id and the
manifest id used for runner session lookups. -/
structure Record where
  id : String
  manifestID : String
deriving DecidableEq

/-- One Runner-interface operation, for recording which runner calls a
Manager operation performs. -/
inductive RunnerCall
  | getSession (id : String)
  | load
  | startPlugin (id : String)
  | stopPlugin (id : String)
deriving DecidableEq

/-- The collaborators of `Manager.SetActiveState` for one call: the
record read from the plugin querier, whether `runner.GetSession`
succeeds for the record's manifest id, the stored binary from
`pluginQuerier.LoadBinary`, and the outcomes of `runner.Load`,
`runner.StartPlugin` and `runner.StopPlugin`. -/
structure ManagerEnv where
  getRecord : Option Record
  sessionExists : Bool
  loadBinary : Option String
  loadResult : Except String Unit
  startResult : Except String Unit
  stopResult : Except String Unit

/-- `Manager.activatePlugin`: if `GetSession` fails, fetch the stored
binary and `runner.Load` it; then call `runner.StartPlugin`. The list
records the Runner operations invoked, in order. -/
def activatePlugin (env : ManagerEnv) (rec : Record) :
    Except String Unit × List RunnerCall :=
  if env.sessionExists then
    match env.startResult with
    | .ok _ => (.ok (), [.getSession rec.manifestID, .startPlugin rec.manifestID])
    | .error e => (.error e, [.getSession rec.manifestID, .startPlugin rec.manifestID])
  else
    match env.loadBinary with
    | none => (.error "failed to load binary", [.getSession rec.manifestID])
    | some _ =>
      match env.loadResult with
      | .error e => (.error e, [.getSession rec.manifestID, .load])
      | .ok _ =>
        match env.startResult with
        | .ok _ => (.ok (), [.getSession rec.manifestID, .load, .startPlugin rec.manifestID])
        | .error e => (.error e, [.getSession rec.manifestID, .load, .startPlugin rec.manifestID])

/-- `Manager.deactivatePlugin`: call `runner.StopPlugin`. -/
def deactivatePlugin (env : ManagerEnv) (rec : Record) :
    Except String Unit × List RunnerCall :=
  match env.stopResult with
  | .ok _ => (.ok (), [.stopPlugin rec.manifestID])
  | .error e => (.error e, [.stopPlugin rec.manifestID])

/-- `Manager.SetActiveState`: fetch the plugin record, then dispatch on
the desired state; any value other than active/inactive is the
"unknown desired state" validation error, with no Runner operation
invoked. -/
def setActiveState (env : ManagerEnv) (desired : String) :
    Except String Unit × List RunnerCall :=
  match env.getRecord with
  | none => (.error "failed to get plugin record", [])
  | some rec =>
    if desired = activeStateActive then activatePlugin env rec
    else if desired = activeStateInactive then deactivatePlugin env rec
    else (.error "unknown desired state", [])

/-- A malicious archive entry using a `../` traversal name. -/
def evilEntry : ZipEntry := ⟨"../evil", false, 420, "y"⟩

/-- A benign file entry. -/
def okEntry : ZipEntry := ⟨"ok.txt", false, 420, "x"⟩

/-- An empty mock filesystem. -/
def fsEmpty : FS := ⟨[], []⟩

/-- Concrete manifest used by witnesses. -/
def mW : Manifest := ⟨"p1", "plug"⟩

/-- Concrete manifest decoder: decodes exactly the bytes "m". -/
def decW : String → Option Manifest := fun s => if s == "m" then some mW else none

/-- A well-formed archive: manifest plus `main` executable. -/
def filesW : List ZipEntry := [⟨"manifest.json", false, 420, "m"⟩, ⟨"main", false, 493, "bin"⟩]

/-- A decoder that rejects everything (malformed manifest bytes). -/
def decNone : String → Option Manifest := fun _ => none

/-- An empty runner registry. -/
def stEmpty : RunnerState := ⟨[]⟩

/-- A session in the active state with no pending commands. -/
def sessActive : PluginSession := ⟨"p1", .active, "", .background, []⟩

/-- A registry holding one active session under id "p1". -/
def stActive : RunnerState := ⟨[("p1", sessActive)]⟩

/-- A valid xid correlation identifier (20 base32hex characters). -/
def xid0 : String := "00000000000000000000"

/-- A concrete decoded response frame carrying `xid0`. -/
def respW : RPCResponse := ⟨xid0, "ok"⟩

/-- A concrete response decoder: decodes exactly the line "\x7bx\x7d". -/
def decRespW : String → Option RPCResponse :=
  fun l => if l == "\x7bx\x7d" then some respW else none

/-- A pending command awaiting `xid0`. -/
def pcW : PendingCommand := ⟨"ping"⟩

/-- A running session whose pending-command table holds `xid0`. -/
def sessPending : PluginSession := ⟨"p1", .active, "", .background, [(xid0, pcW)]⟩

/-- An inactive session about to be started. -/
def sessInactive : PluginSession := ⟨"p1", .inactive, "", .background, []⟩

/-- An archive whose second entry is a path traversal. -/
def arcC8 : Archive := some [okEntry, evilEntry]

/-- A concrete plugin record. -/
def recW : Record := ⟨"r1", "p1"⟩

/-- A manager environment where everything succeeds and a live session
exists. -/
def envW : ManagerEnv := ⟨some recW, true, some "bin", .ok (), .ok (), .ok ()⟩

theorem lookup_filter_ne {α : Type} (l : List (String × α)) (id : String) :
    (l.filter (fun kv => kv.1 != id)).lookup id = none := by
  induction l with
  | nil => rfl
  | cons kv t ih =>
    by_cases h : kv.1 = id
    · simpa [List.filter_cons, h] using ih
    · have hbe : (id == kv.1) = false := beq_eq_false_iff_ne.mpr (Ne.symm h)
      simp [List.filter_cons, List.lookup, h, ih, hbe]

theorem joinWithin_ok (base name p : String) (h : joinWithin base name = .ok p) :
    strHasPre p (base ++ "/") = true ∨ p = base := by
  unfold joinWithin at h
  by_cases he : escapes base name = true
  · simp [he] at h
  · rw [if_neg he] at h
    have hp : p = goJoin base name := by
      cases h
      rfl
    subst hp
    unfold escapes at he
    cases ha : strHasPre (goJoin base name) (base ++ "/") with
    | true => exact Or.inl rfl
    | false =>
      cases hb : goJoin base name == base with
      | true => exact Or.inr (by exact eq_of_beq hb)
      | false =>
        exact absurd (by simp [ha, hb, bne]) he

theorem mkdirAll_dirs_sub (fs : FS) (p d : String) (fs1 : FS)
    (hm : mkdirAll fs p = some fs1) (hd : d ∈ fs.dirs) : d ∈ fs1.dirs := by
  unfold mkdirAll at hm
  split at hm
  · exact absurd hm (by simp)
  · cases hm
    exact List.mem_cons_of_mem _ hd

theorem openFileW_dirs (fs : FS) (p c : String) (fs1 : FS)
    (h : openFileW fs p c = some fs1) : fs1.dirs = fs.dirs := by
  unfold openFileW at h
  split at h
  · exact absurd h (by simp)
  · cases h
    rfl

theorem openFileW_none (fs : FS) (p c : String) (h : p ∈ fs.dirs) :
    openFileW fs p c = none := by
  unfold openFileW
  exact if_pos h

theorem extractLoop_writes_within (workdir : String) (es : List ZipEntry) :
    ∀ fs writes binPath,
      workdir ∈ fs.dirs →
      (∀ p ∈ writes, strHasPre p (workdir ++ "/") = true) →
      ∀ p ∈ (extractLoop workdir fs writes binPath es).writes,
        strHasPre p (workdir ++ "/") = true := by
  induction es with
  | nil =>
    intro fs writes bin hdir hw p hp
    unfold extractLoop at hp
    split at hp
    · exact hw p hp
    · exact hw p hp
  | cons e rest ih =>
    intro fs writes bin hdir hw p hp
    unfold extractLoop at hp
    cases hj : joinWithin workdir e.name with
    | error s =>
      rw [hj] at hp
      exact hw p hp
    | ok target =>
      rw [hj] at hp
      dsimp only at hp
      by_cases hde : e.isDir = true
      · rw [if_pos hde] at hp
        cases hm : mkdirAll fs target with
        | none =>
          rw [hm] at hp
          exact hw p hp
        | some fs1 =>
          rw [hm] at hp
          exact ih fs1 writes bin (mkdirAll_dirs_sub fs target workdir fs1 hm hdir) hw p hp
      · rw [if_neg hde] at hp
        cases hm : mkdirAll fs (goDir target) with
        | none =>
          rw [hm] at hp
          exact hw p hp
        | some fs1 =>
          rw [hm] at hp
          dsimp only at hp
          have hdir1 : workdir ∈ fs1.dirs :=
            mkdirAll_dirs_sub fs (goDir target) workdir fs1 hm hdir
          cases ho : openFileW fs1 target e.content with
          | none =>
            rw [ho] at hp
            exact hw p hp
          | some fs2 =>
            rw [ho] at hp
            dsimp only at hp
            have htarget : strHasPre target (workdir ++ "/") = true := by
              rcases joinWithin_ok workdir e.name target hj with h | h
              · exact h
              · subst h
                exact absurd ho (by simp [openFileW_none fs1 target e.content hdir1])
            have hdir2 : workdir ∈ fs2.dirs := by
              rw [openFileW_dirs fs1 target e.content fs2 ho]
              exact hdir1
            refine ih fs2 (writes ++ [target]) _ hdir2 ?_ p hp
            intro q hq
            rcases List.mem_append.mp hq with h | h
            · exact hw q h
            · rw [List.mem_singleton.mp h]
              exact htarget

theorem extractLoop_err_of_escape (workdir : String) (es : List ZipEntry) :
    ∀ fs writes bin, (∃ e ∈ es, escapes workdir e.name = true) →
      ∃ err, (extractLoop workdir fs writes bin es).result = .error err := by
  induction es with
  | nil =>
    intro fs writes bin h
    rcases h with ⟨e, he, _⟩
    exact absurd he (List.not_mem_nil e)
  | cons a rest ih =>
    intro fs writes bin h
    by_cases ha : escapes workdir a.name = true
    · refine ⟨.entryEscapes, ?_⟩
      simp [extractLoop, joinWithin, ha]
    · rcases h with ⟨e, he, hesc⟩
      have herest : e ∈ rest := by
        rcases List.mem_cons.mp he with h1 | h1
        · subst h1
          exact absurd hesc ha
        · exact h1
      unfold extractLoop
      cases hj : joinWithin workdir a.name with
      | error s => exact ⟨.entryEscapes, rfl⟩
      | ok target =>
        dsimp only
        by_cases hde : a.isDir = true
        · rw [if_pos hde]
          cases hm : mkdirAll fs target with
          | none => exact ⟨.mkdirFailed, rfl⟩
          | some fs1 => exact ih fs1 writes bin ⟨e, herest, hesc⟩
        · rw [if_neg hde]
          cases hm : mkdirAll fs (goDir target) with
          | none => exact ⟨.mkdirFailed, rfl⟩
          | some fs1 =>
            dsimp only
            cases ho : openFileW fs1 target a.content with
            | none => exact ⟨.createFailed, rfl⟩
            | some fs2 =>
              dsimp only
              exact ih fs2 (writes ++ [target]) _ ⟨e, herest, hesc⟩

theorem extractLoop_escape_head (workdir : String) (e : ZipEntry) (rest : List ZipEntry)
    (fs : FS) (writes : List String) (bin : String)
    (h : escapes workdir e.name = true) :
    (extractLoop workdir fs writes bin (e :: rest)).result = .error .entryEscapes := by
  simp [extractLoop, joinWithin, h]

/-- C1: Every file path actually written during `extractSDXArchive` has
the working directory plus the path separator as a prefix (i.e. the
working directory is a strict prefix); any archive entry whose name
resolves outside the working directory makes the whole extraction fail,
and when such an entry is reached the failure is exactly the
path-traversal security error. -/
theorem claim_C1_extraction_path_safety (fs : FS) (workdir : String) (arc : Archive) :
    (∀ p ∈ (extractSDXArchive fs workdir arc).writes,
        strHasPre p (workdir ++ "/") = true)
    ∧ (∀ entries, arc = some entries →
        ∀ e ∈ entries, escapes workdir e.name = true →
          ∃ err, (extractSDXArchive fs workdir arc).result = .error err)
    ∧ (∀ (e : ZipEntry) (rest : List ZipEntry) (fs0 : FS) (w : List String) (b : String),
        escapes workdir e.name = true →
          (extractLoop workdir fs0 w b (e :: rest)).result = .error .entryEscapes) := by
  refine ⟨?_, ?_, ?_⟩
  · intro p hp
    cases arc with
    | none => exact absurd hp (by simp [extractSDXArchive])
    | some entries =>
      refine extractLoop_writes_within workdir entries
        { fs with dirs := workdir :: fs.dirs } [] "" ?_ ?_ p hp
      · exact List.mem_cons_self workdir fs.dirs
      · intro q hq
        exact absurd hq (List.not_mem_nil q)
  · intro entries harc e he hesc
    subst harc
    exact extractLoop_err_of_escape workdir entries
      { fs with dirs := workdir :: fs.dirs } [] "" ⟨e, he, hesc⟩
  · intro e rest fs0 w b h
    exact extractLoop_escape_head workdir e rest fs0 w b h

/-- Witness for C1 at a concrete malicious archive: every written path
stays strictly inside the working directory, and extraction fails. -/
theorem claim_C1_witness :
    (∀ p ∈ (extractSDXArchive fsEmpty "/w" (some [okEntry, evilEntry])).writes,
        strHasPre p ("/w" ++ "/") = true)
    ∧ (∃ err, (extractSDXArchive fsEmpty "/w" (some [okEntry, evilEntry])).result =
        .error err) :=
  ⟨(claim_C1_extraction_path_safety fsEmpty "/w" (some [okEntry, evilEntry])).1,
   (claim_C1_extraction_path_safety fsEmpty "/w" (some [okEntry, evilEntry])).2.1
     [okEntry, evilEntry] rfl evilEntry (by decide) (by decide)⟩

/-- C2: the subprocess backend's `Validate` succeeds with manifest `m`
iff the archive is a readable zip whose first entry base-named
`manifest.json` decodes to `m` and which contains an entry base-named
`main` or `main.exe`; a missing executable (with a fine manifest) is
the distinct missing-executable failure, a missing manifest is reported
independently of the executable check, and the two failures are
distinct error values. -/
theorem claim_C2_validate_characterization (dec : String → Option Manifest) (arc : Archive) :
    (∀ m, sdxValidate dec arc = .ok m ↔
        ∃ files f, arc = some files ∧ files.find? isManifestEntry = some f ∧
          dec f.content = some m ∧ hasMainExecutable files = true)
    ∧ (∀ files f m, arc = some files → files.find? isManifestEntry = some f →
        dec f.content = some m → hasMainExecutable files = false →
        sdxValidate dec arc = .error .missingExecutable)
    ∧ (∀ files, arc = some files → files.find? isManifestEntry = none →
        sdxValidate dec arc = .error .manifestNotFound)
    ∧ (VError.missingExecutable ≠ VError.manifestNotFound ∧
       VError.missingExecutable ≠ VError.decodeManifest) := by
  refine ⟨?_, ?_, ?_, by decide⟩
  · intro m
    cases arc with
    | none => simp [sdxValidate, readSDXManifest]
    | some files =>
      cases hf : files.find? isManifestEntry with
      | none =>
        constructor
        · intro h
          exact absurd h (by simp [sdxValidate, readSDXManifest, hf])
        · rintro ⟨files1, f1, h1, h2, h3, h4⟩
          injection h1 with h1
          subst h1
          rw [hf] at h2
          exact absurd h2 (by simp)
      | some f =>
        cases hd : dec f.content with
        | none =>
          constructor
          · intro h
            exact absurd h (by simp [sdxValidate, readSDXManifest, hf, hd])
          · rintro ⟨files1, f1, h1, h2, h3, h4⟩
            injection h1 with h1
            subst h1
            rw [hf] at h2
            injection h2 with h2
            subst h2
            rw [hd] at h3
            exact absurd h3 (by simp)
        | some m0 =>
          cases he : hasMainExecutable files with
          | false =>
            constructor
            · intro h
              exact absurd h
                (by simp [sdxValidate, readSDXManifest, ensureExecutablePresent, hf, hd, he])
            · rintro ⟨files1, f1, h1, h2, h3, h4⟩
              injection h1 with h1
              subst h1
              rw [he] at h4
              exact absurd h4 (by simp)
          | true =>
            constructor
            · intro h
              have hv : sdxValidate dec (some files) = .ok m0 := by
                simp [sdxValidate, readSDXManifest, ensureExecutablePresent, hf, hd, he]
              rw [hv] at h
              injection h with h
              exact ⟨files, f, rfl, hf, by rw [← h]; exact hd, he⟩
            · rintro ⟨files1, f1, h1, h2, h3, h4⟩
              injection h1 with h1
              subst h1
              rw [hf] at h2
              injection h2 with h2
              subst h2
              simp [sdxValidate, readSDXManifest, ensureExecutablePresent, hf, h3, he]
  · intro files f m harc hf hd he
    subst harc
    simp [sdxValidate, readSDXManifest, ensureExecutablePresent, hf, hd, he]
  · intro files harc hf
    subst harc
    simp [sdxValidate, readSDXManifest, hf]

/-- Witness for C2: a concrete well-formed archive validates to its
manifest, and the same archive without its `main` entry fails with the
distinct missing-executable error. -/
theorem claim_C2_witness :
    sdxValidate decW (some filesW) = .ok mW ∧
    sdxValidate decW (some [⟨"manifest.json", false, 420, "m"⟩]) =
      .error .missingExecutable :=
  ⟨((claim_C2_validate_characterization decW (some filesW)).1 mW).mpr
      ⟨filesW, ⟨"manifest.json", false, 420, "m"⟩, rfl, by decide, by decide, by decide⟩,
   (claim_C2_validate_characterization decW (some [⟨"manifest.json", false, 420, "m"⟩])).2.1
      [⟨"manifest.json", false, 420, "m"⟩] ⟨"manifest.json", false, 420, "m"⟩ mW
      rfl (by decide) (by decide) (by decide)⟩

/-- C3: when validation fails, `sdxRunner.Load` returns the error and
leaves the session registry exactly as it was — no entry is created
for any plugin identifier. -/
theorem claim_C3_load_failure_no_registry (dec : String → Option Manifest)
    (st : RunnerState) (arc : Archive) (e : VError)
    (h : sdxValidate dec arc = .error e) :
    sdxLoad dec st arc = (.error e, st) := by
  unfold sdxLoad
  rw [h]

/-- Witness for C3: loading an archive whose `main` executable is
missing fails with the missing-executable error and leaves an empty
registry empty. -/
theorem claim_C3_witness :
    sdxLoad decW stEmpty (some [⟨"manifest.json", false, 420, "m"⟩, okEntry]) =
      (.error .missingExecutable, stEmpty) :=
  claim_C3_load_failure_no_registry decW stEmpty
    (some [⟨"manifest.json", false, 420, "m"⟩, okEntry]) .missingExecutable rfl

/-- C4 counterexample: with a session for "p1" already in the active
state, a second `StartPlugin` call does not fail — it returns success
to its caller (the "already running" error arises only inside the
asynchronous `runProcess` goroutine and is merely logged), refuting the
claim that the error is reported to the `StartPlugin` caller. -/
theorem claim_C4_counterexample : sdxStartPlugin stActive "p1" = .ok () := rfl

/-- C4 (amended): starting a session that is already active makes the
asynchronous `runProcess` attempt fail with the "plugin is already
running" error, leaving the session (and thus its reported state,
which stays `active`) untouched, while `StartPlugin` itself reports
success to its caller whenever the session exists. -/
theorem claim_C4_second_start_rejected (s : PluginSession) (fs : FS)
    (workdir : String) (arc : Archive) (st : RunnerState) (id : String)
    (hactive : s.reportedState = .active)
    (hreg : lookupSession st id = some s) :
    (runProcessStart s fs workdir arc).1 = .error "plugin is already running"
    ∧ (runProcessStart s fs workdir arc).2.1 = s
    ∧ (runProcessStart s fs workdir arc).2.1.reportedState = .active
    ∧ sdxStartPlugin st id = .ok () := by
  refine ⟨?_, ?_, ?_, ?_⟩
  · unfold runProcessStart
    rw [if_pos hactive]
  · unfold runProcessStart
    rw [if_pos hactive]
  · unfold runProcessStart
    rw [if_pos hactive]
    exact hactive
  · unfold sdxStartPlugin
    rw [hreg]

/-- Witness for C4 (amended) at the concrete active session. -/
theorem claim_C4_witness :
    (runProcessStart sessActive fsEmpty "/w" arcC8).1 =
      .error "plugin is already running"
    ∧ (runProcessStart sessActive fsEmpty "/w" arcC8).2.1 = sessActive
    ∧ (runProcessStart sessActive fsEmpty "/w" arcC8).2.1.reportedState = .active
    ∧ sdxStartPlugin stActive "p1" = .ok () :=
  claim_C4_second_start_rejected sessActive fsEmpty "/w" arcC8 stActive "p1" rfl rfl

/-- C5: when the process terminates after the stopping flag was set the
dispatch loop receives the clean-stop signal and reports `inactive`;
termination without the flag reports `errored` with the wait error
("process exited: …") or the unexpected-exit message as the error
note. -/
theorem claim_C5_exit_state_transitions (dec : String → Option RPCResponse)
    (cancelled : Bool) (s : PluginSession) (waitErr : Option String) :
    (dispatchStep dec cancelled s
        (.errSignal (exitWatcherSignal true waitErr))).sess.reportedState = .inactive
    ∧ (dispatchStep dec cancelled s
        (.errSignal (exitWatcherSignal false waitErr))).sess.reportedState = .errored
    ∧ (∀ e, waitErr = some e →
        (dispatchStep dec cancelled s
          (.errSignal (exitWatcherSignal false waitErr))).sess.errorNote =
          "process exited: " ++ e)
    ∧ (waitErr = none →
        (dispatchStep dec cancelled s
          (.errSignal (exitWatcherSignal false waitErr))).sess.errorNote =
          "plugin exited unexpectedly") := by
  refine ⟨?_, ?_, ?_, ?_⟩
  · simp [exitWatcherSignal, dispatchStep, setState]
  · cases waitErr with
    | none => simp [exitWatcherSignal, dispatchStep, handleError, setState]
    | some e => simp [exitWatcherSignal, dispatchStep, handleError, setState]
  · intro e he
    subst he
    simp [exitWatcherSignal, dispatchStep, handleError, setState]
  · intro he
    subst he
    simp [exitWatcherSignal, dispatchStep, handleError, setState]

/-- Witness for C5 at a concrete running session: a stop-requested exit
reports inactive, an unrequested clean exit reports errored with the
unexpected-exit note. -/
theorem claim_C5_witness :
    (dispatchStep decRespW false sessActive
        (.errSignal (exitWatcherSignal true none))).sess.reportedState = .inactive
    ∧ (dispatchStep decRespW false sessActive
        (.errSignal (exitWatcherSignal false none))).sess.errorNote =
        "plugin exited unexpectedly" :=
  ⟨(claim_C5_exit_state_transitions decRespW false sessActive none).1,
   (claim_C5_exit_state_transitions decRespW false sessActive none).2.2.2 rfl⟩

/-- C6: a well-formed JSON response frame whose correlation identifier
has no entry in the pending-command table moves the session to
`errored`, records "received response for unknown command" as its
error note, and the dispatch loop continues. -/
theorem claim_C6_unknown_response_errored (dec : String → Option RPCResponse)
    (cancelled : Bool) (s : PluginSession) (line : String) (resp : RPCResponse)
    (hline : line.data.head? = some '\x7b')
    (hdec : dec line = some resp)
    (hxid : isValidXID resp.ID = true)
    (hpend : s.pending.lookup resp.ID = none) :
    (dispatchStep dec cancelled s (.outLine line)).sess.reportedState = .errored
    ∧ (dispatchStep dec cancelled s (.outLine line)).sess.errorNote =
        "received response for unknown command"
    ∧ (dispatchStep dec cancelled s (.outLine line)).outcome = .next := by
  cases h : line.data with
  | nil => rw [h] at hline; exact absurd hline (by simp)
  | cons c t =>
    rw [h] at hline
    have hc : c = '\x7b' := by
      injection hline
    subst hc
    refine ⟨?_, ?_, ?_⟩ <;>
      simp [dispatchStep, handleLine, h, hdec, hxid, hpend, handleError, setState]

/-- Witness for C6: a concrete frame carrying a valid but unissued
correlation id errors the session with the unknown-command note. -/
theorem claim_C6_witness :
    (dispatchStep decRespW false sessActive (.outLine "\x7bx\x7d")).sess.reportedState =
      .errored
    ∧ (dispatchStep decRespW false sessActive (.outLine "\x7bx\x7d")).sess.errorNote =
        "received response for unknown command"
    ∧ (dispatchStep decRespW false sessActive (.outLine "\x7bx\x7d")).outcome = .next :=
  claim_C6_unknown_response_errored decRespW false sessActive "\x7bx\x7d" respW
    rfl rfl rfl rfl

/-- C7: a response frame matching a pending command atomically
takes-and-removes that command's table entry — the table no longer
contains its correlation identifier — and the response is delivered to
that command's private response channel exactly when the execution
context has not been cancelled (delivery is abandoned only under
cancellation); the loop continues. -/
theorem claim_C7_pending_take_and_deliver (dec : String → Option RPCResponse)
    (cancelled : Bool) (s : PluginSession) (line : String) (resp : RPCResponse)
    (pc : PendingCommand)
    (hline : line.data.head? = some '\x7b')
    (hdec : dec line = some resp)
    (hxid : isValidXID resp.ID = true)
    (hpend : s.pending.lookup resp.ID = some pc) :
    (dispatchStep dec cancelled s (.outLine line)).sess.pending.lookup resp.ID = none
    ∧ (dispatchStep dec cancelled s (.outLine line)).sess.pending =
        s.pending.filter (fun kv => kv.1 != resp.ID)
    ∧ ((dispatchStep dec cancelled s (.outLine line)).delivery =
        some (.delivered resp.ID resp) ↔ cancelled = false)
    ∧ ((dispatchStep dec cancelled s (.outLine line)).delivery =
        some (.abandoned resp.ID resp) ↔ cancelled = true)
    ∧ (dispatchStep dec cancelled s (.outLine line)).outcome = .next := by
  cases h : line.data with
  | nil => rw [h] at hline; exact absurd hline (by simp)
  | cons c t =>
    rw [h] at hline
    have hc : c = '\x7b' := by
      injection hline
    subst hc
    cases cancelled with
    | false =>
      refine ⟨?_, ?_, ?_, ?_, ?_⟩ <;>
        simp [dispatchStep, handleLine, h, hdec, hxid, hpend, lookup_filter_ne]
    | true =>
      refine ⟨?_, ?_, ?_, ?_, ?_⟩ <;>
        simp [dispatchStep, handleLine, h, hdec, hxid, hpend, lookup_filter_ne]

/-- Witness for C7: the concrete pending command keyed by `xid0` is
removed and its response delivered when the context is live. -/
theorem claim_C7_witness :
    (dispatchStep decRespW false sessPending (.outLine "\x7bx\x7d")).sess.pending.lookup
      respW.ID = none
    ∧ (dispatchStep decRespW false sessPending (.outLine "\x7bx\x7d")).sess.pending =
        sessPending.pending.filter (fun kv => kv.1 != respW.ID)
    ∧ ((dispatchStep decRespW false sessPending (.outLine "\x7bx\x7d")).delivery =
        some (.delivered respW.ID respW) ↔ false = false)
    ∧ ((dispatchStep decRespW false sessPending (.outLine "\x7bx\x7d")).delivery =
        some (.abandoned respW.ID respW) ↔ false = true)
    ∧ (dispatchStep decRespW false sessPending (.outLine "\x7bx\x7d")).outcome = .next :=
  claim_C7_pending_take_and_deliver decRespW false sessPending "\x7bx\x7d" respW pcW
    rfl rfl rfl rfl

/-- C8: evaluated at a concrete archive whose second entry is a `../`
traversal, `runProcess` aborts with the extraction error before any
state transition — the session never becomes active — but the
partially populated working directory (holding the already-extracted
first entry) is left on the filesystem: the source discards the
directory path on the failure return and installs its cleanup defer
only after a successful process start, so no caller removes it. -/
theorem claim_C8_extraction_failure_leaks_workdir :
    (runProcessStart sessInactive fsEmpty "/w" arcC8).1 =
      .error "failed to extract plugin"
    ∧ (runProcessStart sessInactive fsEmpty "/w" arcC8).2.1 = sessInactive
    ∧ (runProcessStart sessInactive fsEmpty "/w" arcC8).2.1.reportedState ≠ .active
    ∧ ("/w/ok.txt", "x") ∈ (runProcessStart sessInactive fsEmpty "/w" arcC8).2.2.files
    ∧ "/w" ∈ (runProcessStart sessInactive fsEmpty "/w" arcC8).2.2.dirs :=
  ⟨rfl, rfl, by decide, by decide, by decide⟩

/-- C9: with a readable record, desired `active` goes through
`GetSession` and invokes `Runner.Load` exactly when no live session
exists, then `StartPlugin`; desired `inactive` invokes `StopPlugin`;
any other desired value is the "unknown desired state" validation
error with no Runner operation invoked. -/
theorem claim_C9_set_active_state_dispatch (env : ManagerEnv) (rec : Record)
    (hrec : env.getRecord = some rec) :
    (env.sessionExists = true →
      (setActiveState env activeStateActive).2 =
        [RunnerCall.getSession rec.manifestID, RunnerCall.startPlugin rec.manifestID])
    ∧ (∀ b, env.sessionExists = false → env.loadBinary = some b →
        env.loadResult = .ok () →
        (setActiveState env activeStateActive).2 =
          [RunnerCall.getSession rec.manifestID, RunnerCall.load,
           RunnerCall.startPlugin rec.manifestID])
    ∧ (RunnerCall.load ∈ (setActiveState env activeStateActive).2 →
        env.sessionExists = false)
    ∧ (setActiveState env activeStateInactive).2 =
        [RunnerCall.stopPlugin rec.manifestID]
    ∧ (∀ d, d ≠ activeStateActive → d ≠ activeStateInactive →
        setActiveState env d = (.error "unknown desired state", [])) := by
  have hne : activeStateInactive ≠ activeStateActive := by decide
  refine ⟨?_, ?_, ?_, ?_, ?_⟩
  · intro hse
    simp only [setActiveState, hrec, activatePlugin, hse]
    cases h : env.startResult <;> simp [h]
  · intro b hse hb hl
    simp only [setActiveState, hrec, activatePlugin, hse, hb, hl]
    cases h : env.startResult <;> simp [h]
  · intro hmem
    cases hse : env.sessionExists with
    | false => rfl
    | true =>
      exfalso
      simp only [setActiveState, hrec, activatePlugin, hse] at hmem
      cases h : env.startResult <;> simp [h] at hmem
  · simp only [setActiveState, hrec, deactivatePlugin, hne]
    cases h : env.stopResult <;> simp [h, hne]
  · intro d hd1 hd2
    simp only [setActiveState, hrec, hd1, hd2]
    simp [hd1, hd2]

/-- Witness for C9 at a concrete environment with a live session: the
active path calls `GetSession` then `StartPlugin` without `Load`, and a
bogus desired state is rejected without Runner calls. -/
theorem claim_C9_witness :
    (setActiveState envW activeStateActive).2 =
      [RunnerCall.getSession recW.manifestID, RunnerCall.startPlugin recW.manifestID]
    ∧ setActiveState envW "bogus" = (.error "unknown desired state", []) :=
  ⟨(claim_C9_set_active_state_dispatch envW recW rfl).1 rfl,
   (claim_C9_set_active_state_dispatch envW recW rfl).2.2.2.2 "bogus"
     (by decide) (by decide)⟩

/-- C10: `Unload` on an identifier with a live session reports success
whatever the internal stop outcome was (the stop error is only logged),
removes the registry entry so a following `GetSession` fails with the
not-found error; `Unload` on an identifier with no live session fails
with the not-found error and leaves the registry unchanged. -/
theorem claim_C10_unload_behavior (st : RunnerState) (stop : Except String Unit)
    (id : String) :
    (∀ s, lookupSession st id = some s →
      (sdxUnload st stop id).1 = .ok ()
      ∧ lookupSession (sdxUnload st stop id).2 id = none
      ∧ sdxGetSession (sdxUnload st stop id).2 id = .error "plugin session not found")
    ∧ (lookupSession st id = none →
      sdxUnload st stop id = (.error "plugin session not found", st)) := by
  constructor
  · intro s h
    refine ⟨?_, ?_, ?_⟩
    · simp only [sdxUnload, h]
    · simp only [sdxUnload, h]
      exact lookup_filter_ne st.sessions id
    · have h2 : List.lookup id st.sessions = some s := h
      simp only [sdxUnload, h2, sdxGetSession, lookupSession, deleteSession,
        lookup_filter_ne]
  · intro h
    simp only [sdxUnload, h]

/-- Witness for C10: unloading the live "p1" session succeeds even
though the internal stop failed, after which `GetSession` reports not
found; unloading from an empty registry fails with not found. -/
theorem claim_C10_witness :
    (sdxUnload stActive (.error "kill failed") "p1").1 = .ok ()
    ∧ sdxGetSession (sdxUnload stActive (.error "kill failed") "p1").2 "p1" =
        .error "plugin session not found"
    ∧ sdxUnload stEmpty (.ok ()) "p1" = (.error "plugin session not found", stEmpty) :=
  ⟨((claim_C10_unload_behavior stActive (.error "kill failed") "p1").1 sessActive rfl).1,
   ((claim_C10_unload_behavior stActive (.error "kill failed") "p1").1 sessActive rfl).2.2,
   (claim_C10_unload_behavior stEmpty (.ok ()) "p1").2 rfl⟩
